import Mathlib

/-!
Verification of the sandboxed tool layer of the coding environment:
the `bash`/`editor` adapter functions of `env.py`, and the underlying
`CommandSession`, `FileEditor` and output-truncation helpers.

The adapter layer is embedded directly from `src/env.py`.  The concrete
tool classes (`BashTool`, `EditTool`, `maybe_truncate`) are imported by
`env.py` from a `tools` package whose implementation modules are not part
of the source tree, so those components are modelled from the spec, as
marked on each definition.
-/

deriving instance DecidableEq for Except

namespace Coding

/-- Shared value type returned by every tool operation (`ToolResult` in the
`tools` package): captured success text, captured failure text, and a
side-channel status text, each optional. -/
structure ToolResult where
  output : Option String
  error : Option String
  system : Option String
deriving DecidableEq, Repr

/-- Python truthiness of an optional string (`if x:`): present and non-empty. -/
def truthy (x : Option String) : Bool :=
  !(x.getD "" == "")

/-- Python `x or d` for an optional string `x` and a string default `d`. -/
def pyOr (x : Option String) (d : String) : String :=
  if truthy x then x.getD "" else d

/-- Python `str.strip()`: remove whitespace characters from both ends
(modelled over the ASCII whitespace characters, which are the only ones the
tool layer produces). -/
def pyStrip (s : String) : String :=
  ⟨((s.data.dropWhile Char.isWhitespace).reverse.dropWhile Char.isWhitespace).reverse⟩

/-- Lines 83-85 of `env.py`: the `output` local of `bash` after combining the
result's output and error channels.  `output = result.output or ""`, then,
when `result.error` is truthy, `output = f"{output}\n{result.error}".strip()`
when `output` is non-empty and `output = result.error` otherwise. -/
def combinedText (r : ToolResult) : String :=
  let output := pyOr r.output ""
  if truthy r.error then
    if output ≠ "" then pyStrip (output ++ "\n" ++ r.error.getD "") else r.error.getD ""
  else output

/-- Outcome of awaiting an underlying tool call: either a `ToolResult` or a
raised `ToolError` carrying a message. -/
def ToolOutcome : Type := Except String ToolResult

/-- The `bash(command, restart)` adapter of `env.py`.  The module-global
`_bash_tool` is the `Option` argument (`none` before `initialize()` and after
`shutdown()`); calling the tool is modelled by applying the wrapped function
to the arguments.  A raised `ToolError e` is rendered as `f"Error: {e.message}"`;
otherwise the combined output, or the result's system text, or `""`. -/
def bash (tool : Option (Option String → Bool → ToolOutcome))
    (command : Option String) (restart : Bool) : String :=
  match tool with
  | none => "Error: Bash tool not initialized"
  | some call =>
    match call command restart with
    | Except.error msg => "Error: " ++ msg
    | Except.ok result =>
      let output := combinedText result
      if output ≠ "" then output else pyOr result.system ""

/-- Argument record of the `editor` adapter of `env.py`. -/
structure EditorArgs where
  command : String
  path : String
  fileText : Option String
  viewRange : Option (List Int)
  oldStr : Option String
  newStr : Option String
  insertLine : Option Int
deriving DecidableEq, Repr

/-- The `editor(...)` adapter of `env.py`: `none` tool state yields the
not-initialized error; a raised `ToolError` or a result with truthy `error`
is rendered as an `"Error: ..."` string; otherwise `result.output or ""`. -/
def editor (tool : Option (EditorArgs → ToolOutcome)) (args : EditorArgs) : String :=
  match tool with
  | none => "Error: Editor tool not initialized"
  | some call =>
    match call args with
    | Except.error msg => "Error: " ++ msg
    | Except.ok result =>
      if truthy result.error then "Error: " ++ result.error.getD ""
      else pyOr result.output ""

/-! ## Output truncation

The `tools` package implementing `maybe_truncate` is not in the source tree
(only `tools/__init__.py` re-exporting it is); the helper is modelled from
the spec. -/

/-- Modelled from the spec: the largest line boundary not after the limit.
A position `p` is a line boundary when `p = 0` or the character at index
`p - 1` is a newline; `cutLen s m` is the largest such `p ≤ m`. -/
def cutLen (s : List Char) : Nat → Nat
  | 0 => 0
  | p + 1 => if s.getD p ' ' == '\n' then p + 1 else cutLen s p

/-- Modelled from the spec: the trailing notice appended by truncation, naming
the number of omitted characters and inviting a narrower view/range. -/
def truncNotice (omitted : Nat) : String :=
  "\n<response clipped: " ++ toString omitted ++
    " characters omitted; request a narrower view or line range to see the rest>"

/-- Modelled from the spec: the `maybe_truncate` helper of the missing
`tools/run.py`.  Text not exceeding `maxLen` is returned unchanged; longer
text is cut at the nearest line boundary not after the limit and the notice
naming the omitted character count is appended. -/
def maybeTruncate (maxLen : Nat) (s : String) : String :=
  if s.data.length ≤ maxLen then s
  else
    let c := cutLen s.data maxLen
    String.mk (s.data.take c) ++ truncNotice (s.data.length - c)

/-- Modelled from the spec: the fixed maximum response length.  The spec
leaves the constant an implementation parameter; a conservative fixed value. -/
def maxResponseLen : Nat := 16000

/-! ## CommandSession

`BashTool` and its command session (the missing `tools/bash.py`) are modelled
from the spec, §4.1: a persistent shell with a liveness flag and a sticky
timed-out flag, an explicit restart path, and a timeout failure mode. -/

/-- Modelled from the spec: the observable state of a `CommandSession` — the
liveness flag and the sticky timed-out flag. -/
structure Session where
  started : Bool
  timedOut : Bool
deriving DecidableEq, Repr

/-- Modelled from the spec: how executing one command against the live shell
can end — the sentinel is observed within the timeout budget (captured stdout,
stderr and exit status), or the budget elapses first. -/
inductive ExecOutcome where
  | timeout
  | finished (out err : String) (exitCode : Int)

/-- Modelled from the spec: failure conditions of `run()`. -/
inductive RunErr where
  | SessionTimedOut
  | CommandTimedOut
  | InvalidArgument
deriving DecidableEq, Repr

/-- Modelled from the spec: the result of one `run()` call — a failure
condition, the "tool has been restarted" status, or a completed command. -/
inductive RunResult where
  | failed (e : RunErr)
  | restarted
  | completed (out err : String) (exitCode : Int)
deriving DecidableEq, Repr

/-- Modelled from the spec: `run(command, restart)` of the command session.
Restart is checked first: it kills any process, clears the timed-out flag and
returns the restarted status without executing the command.  A session still
marked timed-out fails with `SessionTimedOut`.  A missing command fails with
`InvalidArgument`.  Otherwise the command runs against the (lazily started)
shell — `exec` stands for the sentinel-bounded read of the underlying
process — and either times out, marking the session, or completes with its
captured streams, the output passed through truncation. -/
def Session.run (s : Session) (command : Option String) (restart : Bool)
    (exec : String → ExecOutcome) : Session × RunResult :=
  if restart then
    (⟨false, false⟩, RunResult.restarted)
  else if s.timedOut then
    (s, RunResult.failed RunErr.SessionTimedOut)
  else
    match command with
    | none => (s, RunResult.failed RunErr.InvalidArgument)
    | some cmd =>
      match exec cmd with
      | ExecOutcome.timeout =>
          (⟨true, true⟩, RunResult.failed RunErr.CommandTimedOut)
      | ExecOutcome.finished out err code =>
          (⟨true, false⟩,
           RunResult.completed (maybeTruncate maxResponseLen out)
             (maybeTruncate maxResponseLen err) code)

/-! ## FileEditor

`EditTool` (the missing `tools/editor.py`) is modelled from the spec, §4.2:
view/create/str-replace/insert/undo operations on one file, with strict
precondition checks and a per-path undo history.  The state below is the
editor's view of a single path: the file's content (or `none` when the path
does not exist) and the history stack for that path.  Each operation returns
the state after the call together with its outcome, so that "failure leaves
the state untouched" is a statement, not an artifact of the encoding. -/

/-- Modelled from the spec: the failure conditions of editor operations. -/
inductive EditErr where
  | NotFound
  | InvalidArgument
  | Ambiguous (lines : List Nat)
  | InvalidRange
  | NoHistory
deriving DecidableEq, Repr

/-- Modelled from the spec: the editor's state for one path — the file
content when the path exists, and the undo-history stack for that path. -/
structure EditorState where
  file : Option String
  history : List String
deriving DecidableEq, Repr

/-- The positions at which `pat` occurs in `s`: every `i ≤ s.length` such
that `pat` is a prefix of `s.drop i`. -/
def occs (pat s : List Char) : List Nat :=
  (List.range (s.length + 1)).filter (fun i => pat.isPrefixOf (s.drop i))

/-- The 1-based line number containing character position `i` of `s`. -/
def lineAt (s : List Char) (i : Nat) : Nat :=
  1 + (s.take i).count '\n'

/-- Modelled from the spec: `str_replace(old, new)`.  The path must exist;
zero occurrences of `old` fail with `NotFound`, several with `Ambiguous`
listing the 1-based line numbers of the occurrences; a unique occurrence is
replaced by `new`, the prior content pushed onto the history first. -/
def EditorState.strReplace (st : EditorState) (old new : String) :
    EditorState × Except EditErr Unit :=
  match st.file with
  | none => (st, Except.error EditErr.NotFound)
  | some content =>
    match occs old.data content.data with
    | [] => (st, Except.error EditErr.NotFound)
    | [i] =>
      (⟨some ⟨content.data.take i ++ new.data ++ content.data.drop (i + old.data.length)⟩,
        content :: st.history⟩,
       Except.ok ())
    | ls => (st, Except.error (EditErr.Ambiguous (ls.map (lineAt content.data))))

/-- Modelled from the spec: `insert(insert_line, new_str)`.  The path must
exist, `new_str` is required (`InvalidArgument` when missing), and the
integer `insert_line` must lie in `[0, N]` where `N` is the line count
(`InvalidRange` outside, negative included); the (possibly multi-line)
`new_str` is inserted immediately after existing line `insert_line`
(0 prepends), the prior content pushed onto the history. -/
def EditorState.insert (st : EditorState) (insertLine : Int) (newStr : Option String) :
    EditorState × Except EditErr Unit :=
  match st.file with
  | none => (st, Except.error EditErr.NotFound)
  | some content =>
    match newStr with
    | none => (st, Except.error EditErr.InvalidArgument)
    | some t =>
      let ls := content.data.splitOn '\n'
      if insertLine < 0 ∨ insertLine > (ls.length : Int) then
        (st, Except.error EditErr.InvalidRange)
      else
        (⟨some ⟨['\n'].intercalate
            (ls.take insertLine.toNat ++ t.data.splitOn '\n' ++ ls.drop insertLine.toNat)⟩,
          content :: st.history⟩,
         Except.ok ())

/-- Modelled from the spec: `create(file_text)`.  The text is required and
the path must not already exist; the text becomes the file's content and
— as the spec's table states — the new content is pushed onto the history. -/
def EditorState.create (st : EditorState) (fileText : Option String) :
    EditorState × Except EditErr Unit :=
  match fileText with
  | none => (st, Except.error EditErr.InvalidArgument)
  | some t =>
    match st.file with
    | some _ => (st, Except.error EditErr.InvalidArgument)
    | none => (⟨some t, t :: st.history⟩, Except.ok ())

/-- Modelled from the spec: `undo_edit`.  An empty history stack fails with
`NoHistory`; otherwise the most recent prior content is popped and becomes
the file's content again. -/
def EditorState.undoEdit (st : EditorState) : EditorState × Except EditErr Unit :=
  match st.history with
  | [] => (st, Except.error EditErr.NoHistory)
  | prev :: rest => (⟨some prev, rest⟩, Except.ok ())

/-- Modelled from the spec: `view` of a file path (no range): the path must
exist, and the returned text is the content passed through truncation. -/
def EditorState.view (st : EditorState) : Except EditErr String :=
  match st.file with
  | none => Except.error EditErr.NotFound
  | some content => Except.ok (maybeTruncate maxResponseLen content)

/-! ## Basic lemmas -/

theorem truthy_iff (x : Option String) : truthy x = true ↔ x.getD "" ≠ "" := by
  simp [truthy]

theorem truthy_eq_false (x : Option String) : truthy x = false ↔ x.getD "" = "" := by
  simp [truthy]

theorem pyOr_of_truthy {x : Option String} (h : truthy x = true) (d : String) :
    pyOr x d = x.getD "" := by
  simp [pyOr, h]

theorem pyOr_of_not_truthy {x : Option String} (h : truthy x = false) (d : String) :
    pyOr x d = d := by
  simp [pyOr, h]

/-! ## Claim theorems: the adapter layer -/

/-- Claim C1: every failure inside a `bash` or `editor` adapter call — the
tool layer not being initialized, a raised `ToolError`, or (for the editor)
a result carrying an error — is returned to the caller as a plain string
beginning with `"Error: "`; the adapters are total `String`-valued functions,
so no exception crosses the boundary. -/
theorem C1_adapter_failures_render_as_error_strings :
    (∀ c r, ∃ rest, bash none c r = "Error: " ++ rest) ∧
    (∀ (call : Option String → Bool → ToolOutcome) c r m, call c r = Except.error m →
      ∃ rest, bash (some call) c r = "Error: " ++ rest) ∧
    (∀ a, ∃ rest, editor none a = "Error: " ++ rest) ∧
    (∀ (call : EditorArgs → ToolOutcome) a m, call a = Except.error m →
      ∃ rest, editor (some call) a = "Error: " ++ rest) ∧
    (∀ (call : EditorArgs → ToolOutcome) a res, call a = Except.ok res →
      truthy res.error = true →
      ∃ rest, editor (some call) a = "Error: " ++ rest) := by
  refine ⟨fun c r => ⟨"Bash tool not initialized", rfl⟩,
    fun call c r m h => ⟨m, ?_⟩,
    fun a => ⟨"Editor tool not initialized", rfl⟩,
    fun call a m h => ⟨m, ?_⟩,
    fun call a res h ht => ⟨res.error.getD "", ?_⟩⟩
  · simp [bash, h]
  · simp [editor, h]
  · simp [editor, h, ht]

/-- Witness for C1 at concrete inputs. -/
theorem C1_witness :
    (∃ rest, bash (some (fun _ _ => Except.error "boom")) (some "ls") false =
      "Error: " ++ rest) ∧
    (∃ rest, editor (some (fun _ => Except.ok ⟨none, some "bad", none⟩))
      ⟨"view", "/tmp/f", none, none, none, none, none⟩ = "Error: " ++ rest) :=
  ⟨C1_adapter_failures_render_as_error_strings.2.1
      (fun _ _ => Except.error "boom") (some "ls") false "boom" rfl,
    C1_adapter_failures_render_as_error_strings.2.2.2.2
      (fun _ => Except.ok ⟨none, some "bad", none⟩)
      ⟨"view", "/tmp/f", none, none, none, none, none⟩
      ⟨none, some "bad", none⟩ rfl (by decide)⟩

/-- Claim C3: with the tool layer not initialized (`none` instances, as before
`initialize()` or after `shutdown()`), `bash` returns exactly
`"Error: Bash tool not initialized"` and `editor` its not-initialized error,
independently of the arguments — no underlying call exists to execute. -/
theorem C3_not_initialized :
    (∀ c r, bash none c r = "Error: Bash tool not initialized") ∧
    (∀ a, editor none a = "Error: Editor tool not initialized") :=
  ⟨fun _ _ => rfl, fun _ => rfl⟩

/-- Claim C2, counterexample: with output `" a"` (non-empty) and error `"b"`
(non-empty), the adapter returns `"a\nb"` — the Python `.strip()` on the
combined text removed the output's leading space — which is not the output
text followed by the `"\n"` separator followed by the error text. -/
theorem C2_counterexample :
    bash (some (fun _ _ => Except.ok ⟨some " a", some "b", none⟩)) (some "cmd") false
        = "a\nb" ∧
    "a\nb" ≠ " a" ++ "\n" ++ "b" := by
  decide

/-- Claim C2 as amended: when both the output text and the error text are
non-empty, the returned string is the output text, a newline separator, and
the error text concatenated in that order and then stripped of leading and
trailing whitespace (provided the stripped text is non-empty); when only the
error text is non-empty, the error text alone is returned, unstripped. -/
theorem C2_amended (call : Option String → Bool → ToolOutcome) (c : Option String)
    (b : Bool) (r : ToolResult) (hcall : call c b = Except.ok r) :
    (truthy r.output = true → truthy r.error = true →
      pyStrip (r.output.getD "" ++ "\n" ++ r.error.getD "") ≠ "" →
      bash (some call) c b = pyStrip (r.output.getD "" ++ "\n" ++ r.error.getD "")) ∧
    (truthy r.output = false → truthy r.error = true →
      bash (some call) c b = r.error.getD "") := by
  constructor
  · intro ho he hs
    have hone : r.output.getD "" ≠ "" := (truthy_iff r.output).mp ho
    simp [bash, hcall, combinedText, he, pyOr_of_truthy ho, hone, hs]
  · intro ho he
    have hempty : pyOr r.output "" = "" := pyOr_of_not_truthy ho ""
    have hne : r.error.getD "" ≠ "" := (truthy_iff r.error).mp he
    simp [bash, hcall, combinedText, he, hempty, hne]

/-- Witness for C2's amended theorem at concrete inputs. -/
theorem C2_witness :
    bash (some (fun _ _ => Except.ok ⟨some "out", some "err", none⟩)) (some "c") false
        = pyStrip ("out" ++ "\n" ++ "err") ∧
    bash (some (fun _ _ => Except.ok ⟨none, some "err", some "sys"⟩)) (some "c") false
        = "err" :=
  ⟨(C2_amended (fun _ _ => Except.ok ⟨some "out", some "err", none⟩) (some "c") false
      ⟨some "out", some "err", none⟩ rfl).1 (by decide) (by decide) (by decide),
    (C2_amended (fun _ _ => Except.ok ⟨none, some "err", some "sys"⟩) (some "c") false
      ⟨none, some "err", some "sys"⟩ rfl).2 (by decide) (by decide)⟩

/-- Claim C10, counterexample: with output `" "` and error `"\t"` — both
non-empty — the stripped combined text is empty, and the adapter returns the
system side-channel text `"sys"` even though the output is non-empty. -/
theorem C10_counterexample :
    truthy (ToolResult.mk (some " ") (some "\t") (some "sys")).output = true ∧
    truthy (ToolResult.mk (some " ") (some "\t") (some "sys")).error = true ∧
    bash (some (fun _ _ => Except.ok ⟨some " ", some "\t", some "sys"⟩)) (some "cmd") false
        = "sys" := by
  decide

/-- Claim C10 as amended: the adapter returns the system side-channel text
exactly when the combined output/error text is empty — in particular when
output and error are both empty or absent — and the empty string only when
the system text is then also absent or empty; when the combined text is
non-empty it is returned and the system text is never consulted. -/
theorem C10_amended (call : Option String → Bool → ToolOutcome) (c : Option String)
    (b : Bool) (r : ToolResult) (hcall : call c b = Except.ok r) :
    (truthy r.output = false → truthy r.error = false → combinedText r = "") ∧
    (combinedText r = "" → bash (some call) c b = pyOr r.system "") ∧
    (combinedText r = "" → truthy r.system = false → bash (some call) c b = "") ∧
    (combinedText r ≠ "" → bash (some call) c b = combinedText r) := by
  refine ⟨fun ho he => ?_, fun hc => ?_, fun hc hs => ?_, fun hc => ?_⟩
  · simp [combinedText, he, pyOr_of_not_truthy ho]
  · simp [bash, hcall, hc]
  · simp [bash, hcall, hc, pyOr_of_not_truthy hs]
  · simp [bash, hcall, hc]

/-- Witness for C10's amended theorem at concrete inputs. -/
theorem C10_witness :
    bash (some (fun _ _ => Except.ok ⟨none, none, some "tool has been restarted"⟩))
        none true = pyOr (some "tool has been restarted") "" ∧
    bash (some (fun _ _ => Except.ok ⟨none, some "", none⟩)) (some "c") false = "" ∧
    bash (some (fun _ _ => Except.ok ⟨some "out", none, some "sys"⟩)) (some "c") false
        = combinedText ⟨some "out", none, some "sys"⟩ :=
  ⟨(C10_amended (fun _ _ => Except.ok ⟨none, none, some "tool has been restarted"⟩)
      none true ⟨none, none, some "tool has been restarted"⟩ rfl).2.1 (by decide),
    (C10_amended (fun _ _ => Except.ok ⟨none, some "", none⟩) (some "c") false
      ⟨none, some "", none⟩ rfl).2.2.1 (by decide) (by decide),
    (C10_amended (fun _ _ => Except.ok ⟨some "out", none, some "sys"⟩) (some "c") false
      ⟨some "out", none, some "sys"⟩ rfl).2.2.2 (by decide)⟩

/-! ## Claim theorems: the command session -/

/-- Claim C4: a `run()` whose command exceeds the timeout budget fails with
`CommandTimedOut` and marks the session timed-out; from then on every
`run()` without restart fails with `SessionTimedOut`, leaving the state
untouched and never invoking the command; `run(restart=true)` returns the
restarted status with the timed-out flag cleared, ignoring both the command
and any execution; and a fresh command afterwards executes normally. -/
theorem C4_timeout_restart_cycle :
    (∀ (s : Session) cmd exec, s.timedOut = false → exec cmd = ExecOutcome.timeout →
      (s.run (some cmd) false exec).2 = RunResult.failed RunErr.CommandTimedOut ∧
      (s.run (some cmd) false exec).1.timedOut = true) ∧
    (∀ (s : Session) c exec, s.timedOut = true →
      (s.run c false exec).2 = RunResult.failed RunErr.SessionTimedOut ∧
      (s.run c false exec).1 = s ∧
      (∀ exec2, s.run c false exec = s.run c false exec2)) ∧
    (∀ (s : Session) c exec,
      (s.run c true exec).2 = RunResult.restarted ∧
      (s.run c true exec).1.timedOut = false ∧
      (∀ c2 exec2, s.run c true exec = s.run c2 true exec2)) ∧
    (∀ (s : Session) c exec cmd exec2 out err code,
      exec2 cmd = ExecOutcome.finished out err code →
      ((s.run c true exec).1.run (some cmd) false exec2).2 =
        RunResult.completed (maybeTruncate maxResponseLen out)
          (maybeTruncate maxResponseLen err) code) := by
  refine ⟨fun s cmd exec hs he => ?_, fun s c exec hs => ?_,
    fun s c exec => ?_, fun s c exec cmd exec2 out err code he => ?_⟩
  · simp [Session.run, hs, he]
  · exact ⟨by simp [Session.run, hs], by simp [Session.run, hs],
      fun exec2 => by simp [Session.run, hs]⟩
  · exact ⟨by simp [Session.run], by simp [Session.run],
      fun c2 exec2 => by simp [Session.run]⟩
  · simp [Session.run, he]

/-- Witness for C4: a concrete timeout / sticky-failure / restart / fresh-run
sequence through the session state machine. -/
theorem C4_witness :
    ((Session.mk true false).run (some "sleep 999") false
        (fun _ => ExecOutcome.timeout)).2 = RunResult.failed RunErr.CommandTimedOut ∧
    ((Session.mk true true).run (some "echo hi") false
        (fun _ => ExecOutcome.finished "hi" "" 0)).2 =
      RunResult.failed RunErr.SessionTimedOut ∧
    ((Session.mk true true).run (some "ignored") true
        (fun _ => ExecOutcome.timeout)).2 = RunResult.restarted ∧
    (((Session.mk true true).run (some "ignored") true (fun _ => ExecOutcome.timeout)).1.run
        (some "echo hi") false (fun _ => ExecOutcome.finished "hi" "" 0)).2 =
      RunResult.completed (maybeTruncate maxResponseLen "hi")
        (maybeTruncate maxResponseLen "") 0 :=
  ⟨(C4_timeout_restart_cycle.1 (Session.mk true false) "sleep 999"
      (fun _ => ExecOutcome.timeout) rfl rfl).1,
    (C4_timeout_restart_cycle.2.1 (Session.mk true true) (some "echo hi")
      (fun _ => ExecOutcome.finished "hi" "" 0) rfl).1,
    (C4_timeout_restart_cycle.2.2.1 (Session.mk true true) (some "ignored")
      (fun _ => ExecOutcome.timeout)).1,
    C4_timeout_restart_cycle.2.2.2 (Session.mk true true) (some "ignored")
      (fun _ => ExecOutcome.timeout) "echo hi" (fun _ => ExecOutcome.finished "hi" "" 0)
      "hi" "" 0 rfl⟩

/-! ## Claim theorems: the file editor -/

/-- Claim C5: every editor operation whose precondition check fails — in
particular `str_replace` with zero or with more than one occurrence of
`old_str` — aborts before any content is mutated and before anything is
pushed onto the undo history: the state after the call is exactly the state
before it. -/
theorem C5_failed_precondition_leaves_state_unchanged :
    (∀ (st : EditorState) old new e, (st.strReplace old new).2 = Except.error e →
      (st.strReplace old new).1 = st) ∧
    (∀ (st : EditorState) n t e, (st.insert n t).2 = Except.error e →
      (st.insert n t).1 = st) ∧
    (∀ (st : EditorState) ft e, (st.create ft).2 = Except.error e →
      (st.create ft).1 = st) ∧
    (∀ (st : EditorState) e, st.undoEdit.2 = Except.error e → st.undoEdit.1 = st) := by
  refine ⟨fun st old new e h => ?_, fun st n t e h => ?_,
    fun st ft e h => ?_, fun st e h => ?_⟩
  · unfold EditorState.strReplace at h ⊢
    rcases hf : st.file with _ | content
    · simp
    · rcases ho : occs old.data content.data with _ | ⟨i, _ | ⟨j, tl⟩⟩
      · simp [ho]
      · simp [hf, ho] at h
      · simp [ho]
  · unfold EditorState.insert at h ⊢
    rcases hf : st.file with _ | content
    · simp
    · rcases t with _ | t
      · simp
      · by_cases hn : n < 0 ∨ n > ((content.data.splitOn '\n').length : Int)
        · simp [hn]
        · simp [hf, hn] at h
  · unfold EditorState.create at h ⊢
    rcases ft with _ | t
    · rfl
    · rcases hf : st.file with _ | old
      · simp [hf] at h
      · simp
  · unfold EditorState.undoEdit at h ⊢
    rcases hh : st.history with _ | ⟨prev, rest⟩
    · simp
    · simp [hh] at h

/-- Witness for C5: each operation failing at a concrete input leaves the
concrete state exactly as it was. -/
theorem C5_witness :
    ((EditorState.mk (some "aba") []).strReplace "a" "x").1
        = EditorState.mk (some "aba") [] ∧
    ((EditorState.mk (some "a\nb") []).insert (-1) (some "x")).1
        = EditorState.mk (some "a\nb") [] ∧
    ((EditorState.mk (some "old") ["old"]).create (some "y")).1
        = EditorState.mk (some "old") ["old"] ∧
    ((EditorState.mk (some "a") []).undoEdit).1 = EditorState.mk (some "a") [] :=
  ⟨C5_failed_precondition_leaves_state_unchanged.1 (EditorState.mk (some "aba") [])
      "a" "x" (EditErr.Ambiguous [1, 1]) (by decide),
    C5_failed_precondition_leaves_state_unchanged.2.1 (EditorState.mk (some "a\nb") [])
      (-1) (some "x") EditErr.InvalidRange (by decide),
    C5_failed_precondition_leaves_state_unchanged.2.2.1
      (EditorState.mk (some "old") ["old"]) (some "y") EditErr.InvalidArgument (by decide),
    C5_failed_precondition_leaves_state_unchanged.2.2.2 (EditorState.mk (some "a") [])
      EditErr.NoHistory (by decide)⟩

/-- Claim C6, counterexample: `create` on a fresh path succeeds and pushes the
new content (per the spec's own table), so the one `undo_edit` that follows
also succeeds but rewrites the created text — it does not restore the state
that existed immediately before the `create` (no file at all). -/
theorem C6_counterexample :
    ((EditorState.mk none []).create (some "x")).2 = Except.ok () ∧
    (((EditorState.mk none []).create (some "x")).1.undoEdit).2 = Except.ok () ∧
    (((EditorState.mk none []).create (some "x")).1.undoEdit).1.file = some "x" ∧
    (EditorState.mk none []).file ≠ some "x" := by
  decide

/-- Claim C6 as amended: after a successful `str_replace` or `insert`, exactly
one `undo_edit` succeeds and restores the state (content and history) that
existed immediately before the operation; after a successful `create`, the
one `undo_edit` succeeds but leaves the created content in place, since
`create` pushes the new content rather than a prior state; and with only one
history entry, a second consecutive `undo_edit` fails with `NoHistory` rather
than acting as a no-op. -/
theorem C6_amended_undo :
    (∀ (st : EditorState) old new, (st.strReplace old new).2 = Except.ok () →
      ((st.strReplace old new).1.undoEdit).2 = Except.ok () ∧
      ((st.strReplace old new).1.undoEdit).1 = st) ∧
    (∀ (st : EditorState) n t, (st.insert n t).2 = Except.ok () →
      ((st.insert n t).1.undoEdit).2 = Except.ok () ∧
      ((st.insert n t).1.undoEdit).1 = st) ∧
    (∀ (st : EditorState) t, (st.create (some t)).2 = Except.ok () →
      ((st.create (some t)).1.undoEdit).2 = Except.ok () ∧
      ((st.create (some t)).1.undoEdit).1 = EditorState.mk (some t) st.history) ∧
    (∀ (st : EditorState) prev, st.history = [prev] →
      st.undoEdit.2 = Except.ok () ∧
      (st.undoEdit.1.undoEdit).2 = Except.error EditErr.NoHistory) := by
  refine ⟨fun st old new h => ?_, fun st n t h => ?_, fun st t h => ?_,
    fun st prev h => ?_⟩
  · unfold EditorState.strReplace at h ⊢
    rcases hf : st.file with _ | content
    · simp [hf] at h
    · rcases ho : occs old.data content.data with _ | ⟨i, _ | ⟨j, tl⟩⟩
      · simp [hf, ho] at h
      · rcases st with ⟨file, history⟩
        simp only at hf
        simp [hf, ho, EditorState.undoEdit]
      · simp [hf, ho] at h
  · unfold EditorState.insert at h ⊢
    rcases hf : st.file with _ | content
    · simp [hf] at h
    · rcases t with _ | t
      · simp [hf] at h
      · by_cases hn : n < 0 ∨ n > ((content.data.splitOn '\n').length : Int)
        · simp [hf, hn] at h
        · rcases st with ⟨file, history⟩
          simp only at hf
          simp [hf, hn, EditorState.undoEdit]
  · unfold EditorState.create at h ⊢
    rcases hf : st.file with _ | old
    · rcases st with ⟨file, history⟩
      simp only at hf
      simp [hf, EditorState.undoEdit]
    · simp [hf] at h
  · have h2 : st.undoEdit = (EditorState.mk (some prev) [], Except.ok ()) := by
      unfold EditorState.undoEdit; rw [h]
    rw [h2]
    exact ⟨rfl, rfl⟩

/-- Witness for C6's amended theorem: a concrete replace-undo round trip, a
concrete insert-undo round trip, a concrete create-undo, and a concrete
second-undo failure. -/
theorem C6_witness :
    (((EditorState.mk (some "ab") []).strReplace "a" "x").1.undoEdit).1
        = EditorState.mk (some "ab") [] ∧
    (((EditorState.mk (some "a\nb") []).insert 1 (some "x")).1.undoEdit).1
        = EditorState.mk (some "a\nb") [] ∧
    (((EditorState.mk none []).create (some "x")).1.undoEdit).1
        = EditorState.mk (some "x") [] ∧
    ((EditorState.mk (some "b") ["a"]).undoEdit.1.undoEdit).2
        = Except.error EditErr.NoHistory :=
  ⟨(C6_amended_undo.1 (EditorState.mk (some "ab") []) "a" "x" (by decide)).2,
    (C6_amended_undo.2.1 (EditorState.mk (some "a\nb") []) 1 (some "x") (by decide)).2,
    (C6_amended_undo.2.2.1 (EditorState.mk none []) "x" (by decide)).2,
    (C6_amended_undo.2.2.2 (EditorState.mk (some "b") ["a"]) "a" rfl).2⟩

/-! ## Occurrence lemmas for the round-trip property -/

theorem mem_occs {pat s : List Char} {i : Nat} :
    i ∈ occs pat s ↔ i ≤ s.length ∧ pat <+: s.drop i := by
  simp [occs, List.mem_filter, List.mem_range, Nat.lt_succ_iff, List.isPrefixOf_iff_prefix]

theorem occs_take_length {pat s : List Char} {i : Nat} (h : i ∈ occs pat s) :
    (s.take i).length = i := by
  have h1 := (mem_occs.mp h).1
  simp [List.length_take]
  omega

theorem occs_decomp {pat s : List Char} {i : Nat} (h : i ∈ occs pat s) :
    s = s.take i ++ pat ++ s.drop (i + pat.length) := by
  obtain ⟨hle, t, ht⟩ := mem_occs.mp h
  have hdrop : s.drop (i + pat.length) = t := by
    rw [← List.drop_drop, ← ht, List.drop_left]
  calc s = s.take i ++ s.drop i := (List.take_append_drop i s).symm
    _ = s.take i ++ (pat ++ t) := by rw [ht]
    _ = s.take i ++ pat ++ s.drop (i + pat.length) := by rw [hdrop, List.append_assoc]

theorem mem_occs_of_append (a pat b : List Char) :
    a.length ∈ occs pat (a ++ pat ++ b) := by
  rw [mem_occs]
  refine ⟨?_, ?_⟩
  · simp [List.length_append]
  · rw [List.append_assoc, List.drop_left]
    exact ⟨b, rfl⟩

/-- Characterization of a successful `str_replace`: the path exists, the old
string occurs at exactly one position, and the new state holds the content
with that occurrence replaced, the prior content pushed onto the history. -/
theorem strReplace_ok (st : EditorState) (old new : String)
    (h : (st.strReplace old new).2 = Except.ok ()) :
    ∃ content i, st.file = some content ∧ occs old.data content.data = [i] ∧
      (st.strReplace old new).1 =
        ⟨some ⟨content.data.take i ++ new.data ++ content.data.drop (i + old.data.length)⟩,
          content :: st.history⟩ := by
  unfold EditorState.strReplace at h ⊢
  rcases hf : st.file with _ | content
  · simp [hf] at h
  · rcases ho : occs old.data content.data with _ | ⟨i, _ | ⟨j, tl⟩⟩
    · simp [hf, ho] at h
    · exact ⟨content, i, rfl, ho, by simp [hf, ho]⟩
    · simp [hf, ho] at h

/-- Claim C7: when `str_replace(old, new)` succeeds (so `old` is a unique
substring of the content) and the subsequent `str_replace(new, old)` succeeds
(so `new` is a unique substring of the replaced content), the file content is
restored to exactly what it was before the first replacement. -/
theorem C7_str_replace_round_trip (st : EditorState) (old new : String)
    (h1 : (st.strReplace old new).2 = Except.ok ())
    (h2 : ((st.strReplace old new).1.strReplace new old).2 = Except.ok ()) :
    ((st.strReplace old new).1.strReplace new old).1.file = st.file := by
  obtain ⟨content, i, hf, ho, hst1⟩ := strReplace_ok st old new h1
  obtain ⟨content2, j, hf2, ho2, hst2⟩ := strReplace_ok _ new old h2
  have hi : i ∈ occs old.data content.data := by rw [ho]; exact List.mem_singleton_self i
  set a := content.data.take i with ha
  set b := content.data.drop (i + old.data.length) with hb
  have hlen : a.length = i := occs_take_length hi
  rw [hst1] at hf2
  simp only [Option.some.injEq] at hf2
  have hc2 : content2.data = a ++ new.data ++ b := by rw [← hf2]
  have hmem : i ∈ occs new.data content2.data := by
    rw [hc2]
    have hm := mem_occs_of_append a new.data b
    rwa [hlen] at hm
  have hij : i = j := by
    rw [ho2] at hmem
    simpa using hmem
  have htake : content2.data.take i = a := by
    rw [hc2, List.append_assoc, ← hlen, List.take_left]
  have hdrop : content2.data.drop (i + new.data.length) = b := by
    rw [hc2, ← hlen, ← List.length_append, List.drop_left]
  have hdecomp : content.data = a ++ old.data ++ b := occs_decomp hi
  rw [hst2, ← hij]
  show some (⟨content2.data.take i ++ old.data ++
      content2.data.drop (i + new.data.length)⟩ : String) = st.file
  rw [htake, hdrop, hf]
  exact congrArg (fun l => some (String.mk l)) hdecomp.symm

/-- Witness for C7: a concrete replace and replace-back round trip. -/
theorem C7_witness :
    (((EditorState.mk (some "hello world") []).strReplace "world" "there").1.strReplace
        "there" "world").1.file = (EditorState.mk (some "hello world") []).file :=
  C7_str_replace_round_trip (EditorState.mk (some "hello world") [])
    "world" "there" (by decide) (by decide)

/-! ## splitOn lemmas for insert -/

theorem splitOnP_pieces {α : Type} [DecidableEq α] {p : α → Bool} :
    ∀ {xs : List α} {l}, l ∈ xs.splitOnP p → ∀ y ∈ l, ¬ p y = true := by
  intro xs
  induction xs with
  | nil =>
    intro l hl
    rw [List.splitOnP_nil] at hl
    simp at hl
    simp [hl]
  | cons a tl ih =>
    intro l hl
    rw [List.splitOnP_cons] at hl
    by_cases ha : p a
    · simp [ha] at hl
      rcases hl with h1 | h2
      · simp [h1]
      · exact ih h2
    · simp [ha] at hl
      obtain ⟨r, rs, hr⟩ := List.exists_cons_of_ne_nil (List.splitOnP_ne_nil p tl)
      rw [hr] at hl
      simp [List.modifyHead] at hl
      rcases hl with h1 | h2
      · subst h1
        intro y hy
        rcases List.mem_cons.mp hy with h3 | h4
        · subst h3; exact ha
        · exact ih (hr ▸ List.mem_cons_self r rs) y h4
      · exact ih (hr ▸ List.mem_cons_of_mem r h2)

theorem splitOn_pieces {α : Type} [DecidableEq α] {x : α} {xs : List α} {l : List α}
    (hl : l ∈ xs.splitOn x) : x ∉ l := by
  intro hm
  have hp := splitOnP_pieces (p := fun y => y == x) (by rwa [List.splitOn] at hl) x hm
  simp at hp

theorem splitOn_ne_nil {α : Type} [DecidableEq α] (x : α) (xs : List α) :
    xs.splitOn x ≠ [] := by
  rw [List.splitOn]
  exact List.splitOnP_ne_nil _ xs

/-- Claim C8: for a file with `N` lines, `insert` with an integer
`insert_line` in `[0, N]` succeeds and places the (possibly multi-line)
`new_str` immediately after existing line `insert_line` — the line list of
the result is the first `insert_line` lines, then the lines of `new_str`,
then the rest — while `insert_line` outside `[0, N]` (negative or above `N`)
fails with `InvalidRange` leaving the state unchanged, and a missing
`new_str` fails with `InvalidArgument`; concretely on lines `["a","b"]` with
`new_str = "x"`, `insert_line = 0` yields `["x","a","b"]`, `2` yields
`["a","b","x"]`, and `3` and `-1` fail with `InvalidRange`. -/
theorem C8_insert_semantics :
    (∀ (st : EditorState) content t (n : Int), st.file = some content →
      0 ≤ n → n ≤ ((content.data.splitOn '\n').length : Int) →
      (st.insert n (some t)).2 = Except.ok () ∧
      ∃ c, (st.insert n (some t)).1.file = some c ∧
        c.data.splitOn '\n' =
          (content.data.splitOn '\n').take n.toNat ++ t.data.splitOn '\n' ++
            (content.data.splitOn '\n').drop n.toNat) ∧
    (∀ (st : EditorState) content t (n : Int), st.file = some content →
      (n < 0 ∨ n > ((content.data.splitOn '\n').length : Int)) →
      (st.insert n (some t)).2 = Except.error EditErr.InvalidRange ∧
      (st.insert n (some t)).1 = st) ∧
    (∀ (st : EditorState) content (n : Int), st.file = some content →
      (st.insert n none).2 = Except.error EditErr.InvalidArgument ∧
      (st.insert n none).1 = st) ∧
    ((EditorState.mk (some "a\nb") []).insert 0 (some "x")).1.file = some "x\na\nb" ∧
    ((EditorState.mk (some "a\nb") []).insert 2 (some "x")).1.file = some "a\nb\nx" ∧
    ((EditorState.mk (some "a\nb") []).insert 3 (some "x")).2
        = Except.error EditErr.InvalidRange ∧
    ((EditorState.mk (some "a\nb") []).insert (-1) (some "x")).2
        = Except.error EditErr.InvalidRange := by
  refine ⟨fun st content t n hf h0 hn => ?_, fun st content t n hf hn => ?_,
    fun st content n hf => ?_, by decide, by decide, by decide, by decide⟩
  · have hnot : ¬ (n < 0 ∨ n > ((content.data.splitOn '\n').length : Int)) := by omega
    unfold EditorState.insert
    rw [hf]
    simp only [hnot, if_false]
    refine ⟨by simp, ⟨['\n'].intercalate ((content.data.splitOn '\n').take n.toNat ++
      t.data.splitOn '\n' ++ (content.data.splitOn '\n').drop n.toNat)⟩, by simp, ?_⟩
    refine List.splitOn_intercalate _ '\n' ?_ ?_
    · intro l hl
      rcases List.mem_append.mp hl with h1 | h2
      · rcases List.mem_append.mp h1 with h3 | h4
        · exact splitOn_pieces (List.take_subset n.toNat _ h3)
        · exact splitOn_pieces h4
      · exact splitOn_pieces (List.drop_subset n.toNat _ h2)
    · intro hcontra
      have hmid := splitOn_ne_nil '\n' t.data
      rcases List.append_eq_nil.mp hcontra with ⟨h1, h2⟩
      rcases List.append_eq_nil.mp h1 with ⟨h3, h4⟩
      exact hmid h4
  · unfold EditorState.insert
    rw [hf]
    simp only [hn, if_true]
    exact ⟨by simp, by simp⟩
  · unfold EditorState.insert
    rw [hf]
    exact ⟨by simp, by simp⟩

/-- Witness for C8: a concrete multi-line insert in the middle, a concrete
negative-index failure, and a concrete missing-text failure, all through the
theorem. -/
theorem C8_witness :
    (((EditorState.mk (some "a\nb") []).insert 1 (some "x\ny")).2 = Except.ok () ∧
      ∃ c, ((EditorState.mk (some "a\nb") []).insert 1 (some "x\ny")).1.file = some c ∧
        c.data.splitOn '\n' =
          (("a\nb" : String).data.splitOn '\n').take (1 : Int).toNat ++
            ("x\ny" : String).data.splitOn '\n' ++
            (("a\nb" : String).data.splitOn '\n').drop (1 : Int).toNat) ∧
    (((EditorState.mk (some "a\nb") []).insert (-1) (some "x")).2
        = Except.error EditErr.InvalidRange ∧
      ((EditorState.mk (some "a\nb") []).insert (-1) (some "x")).1
        = EditorState.mk (some "a\nb") []) ∧
    (((EditorState.mk (some "a\nb") []).insert 0 none).2
        = Except.error EditErr.InvalidArgument ∧
      ((EditorState.mk (some "a\nb") []).insert 0 none).1
        = EditorState.mk (some "a\nb") []) :=
  ⟨C8_insert_semantics.1 (EditorState.mk (some "a\nb") []) "a\nb" "x\ny" 1 rfl
      (by decide) (by decide),
    C8_insert_semantics.2.1 (EditorState.mk (some "a\nb") []) "a\nb" "x" (-1) rfl
      (by decide),
    C8_insert_semantics.2.2.1 (EditorState.mk (some "a\nb") []) "a\nb" 0 rfl⟩

/-! ## cutLen lemmas and the truncation claim -/

theorem cutLen_le (s : List Char) (m : Nat) : cutLen s m ≤ m := by
  induction m with
  | zero => exact Nat.le_refl 0
  | succ p ih =>
    unfold cutLen
    split
    · exact Nat.le_refl (p + 1)
    · exact Nat.le_succ_of_le ih

theorem cutLen_boundary (s : List Char) (m : Nat) :
    cutLen s m = 0 ∨ s.getD (cutLen s m - 1) ' ' = '\n' := by
  induction m with
  | zero => left; rfl
  | succ p ih =>
    unfold cutLen
    split
    · rename_i hcond
      right
      exact eq_of_beq hcond
    · exact ih

theorem cutLen_greatest (s : List Char) (m p : Nat) (hp : p ≤ m)
    (hb : p = 0 ∨ s.getD (p - 1) ' ' = '\n') : p ≤ cutLen s m := by
  induction m with
  | zero =>
    have h0 : p = 0 := Nat.le_zero.mp hp
    simp [h0]
  | succ q ih =>
    rcases Nat.lt_or_ge p (q + 1) with hlt | hge
    · have hpq : p ≤ q := Nat.lt_succ_iff.mp hlt
      have h1 := ih hpq
      unfold cutLen
      split
      · omega
      · exact h1
    · have hpe : p = q + 1 := Nat.le_antisymm hp hge
      subst hpe
      rcases hb with h0 | hnl
      · exact absurd h0 (Nat.succ_ne_zero q)
      · simp only [Nat.add_sub_cancel] at hnl
        unfold cutLen
        rw [if_pos (beq_iff_eq.mpr hnl)]

/-- Claim C9: text not exceeding the maximum length is returned unchanged by
the truncation helper; longer text is cut at the largest line boundary not
after the limit (a position that is 0 or directly preceded by a newline, and
at least as large as every other such position within the limit) with the
trailing notice naming the number of omitted characters appended; and the
same helper is what both the editor's file view and the session's command
output pass through. -/
theorem C9_truncation :
    (∀ (m : Nat) (s : String), s.data.length ≤ m → maybeTruncate m s = s) ∧
    (∀ (m : Nat) (s : String), s.data.length > m →
      ∃ c, c ≤ m ∧ (c = 0 ∨ s.data.getD (c - 1) ' ' = '\n') ∧
        (∀ p, p ≤ m → (p = 0 ∨ s.data.getD (p - 1) ' ' = '\n') → p ≤ c) ∧
        maybeTruncate m s = String.mk (s.data.take c) ++ truncNotice (s.data.length - c)) ∧
    (∀ (st : EditorState) content, st.file = some content →
      st.view = Except.ok (maybeTruncate maxResponseLen content)) ∧
    (∀ (s : Session) cmd exec out err code, s.timedOut = false →
      exec cmd = ExecOutcome.finished out err code →
      (s.run (some cmd) false exec).2 =
        RunResult.completed (maybeTruncate maxResponseLen out)
          (maybeTruncate maxResponseLen err) code) := by
  refine ⟨fun m s h => ?_, fun m s h => ?_, fun st content hf => ?_,
    fun s cmd exec out err code hs he => ?_⟩
  · unfold maybeTruncate
    rw [if_pos h]
  · have hnot : ¬ s.data.length ≤ m := by omega
    exact ⟨cutLen s.data m, cutLen_le s.data m, cutLen_boundary s.data m,
      fun p hp hb => cutLen_greatest s.data m p hp hb,
      by unfold maybeTruncate; rw [if_neg hnot]⟩
  · simp [EditorState.view, hf]
  · simp [Session.run, hs, he]

/-- Witness for C9: a short text passes unchanged; a 7-character text over a
5-character limit is cut at its line boundary with the notice appended; and
the concrete view/run outputs route through the same helper. -/
theorem C9_witness :
    maybeTruncate 10 "ab\ncd" = "ab\ncd" ∧
    (∃ c, c ≤ 5 ∧ (c = 0 ∨ ("ab\ncdef" : String).data.getD (c - 1) ' ' = '\n') ∧
      (∀ p, p ≤ 5 → (p = 0 ∨ ("ab\ncdef" : String).data.getD (p - 1) ' ' = '\n') → p ≤ c) ∧
      maybeTruncate 5 "ab\ncdef" = String.mk (("ab\ncdef" : String).data.take c) ++
        truncNotice (("ab\ncdef" : String).data.length - c)) ∧
    (EditorState.mk (some "hello") []).view = Except.ok (maybeTruncate maxResponseLen "hello") ∧
    ((Session.mk false false).run (some "echo hi") false
        (fun _ => ExecOutcome.finished "hi" "" 0)).2 =
      RunResult.completed (maybeTruncate maxResponseLen "hi")
        (maybeTruncate maxResponseLen "") 0 :=
  ⟨C9_truncation.1 10 "ab\ncd" (by decide),
    C9_truncation.2.1 5 "ab\ncdef" (by decide),
    C9_truncation.2.2.1 (EditorState.mk (some "hello") []) "hello" rfl,
    C9_truncation.2.2.2 (Session.mk false false) "echo hi"
      (fun _ => ExecOutcome.finished "hi" "" 0) "hi" "" 0 rfl rfl⟩

end Coding
